import Mathlib

/-
Verification of the ptcgp card-query server core: the dataset loader
(CSV rows with two JSON-embedded columns) and the four query operations
(exact id lookup, fuzzy name search, color filter, fuzzy ability search),
embedded shallowly as pure Lean functions over an explicit table.
-/

set_option autoImplicit false

namespace PTCGP

/-- A structured ability definition decoded from the ability JSON cell;
the query engine only ever reads its `info` text field. -/
structure Ability where
  info : String
  deriving Repr, DecidableEq

/-- One row of the in-memory table as the query operations see it: the
named columns the engine reads (`id`, `name`, `color`, `ability`) plus the
remaining passthrough columns as an association list. -/
structure Card where
  id : String
  name : String
  color : String
  ability : List Ability
  extra : List (String × String)
  deriving Repr, DecidableEq

/-- A Python-level exception escaping an operation to the host
(a `TypeError` from subscripting `None`, or a `KeyError` from a dict). -/
inductive Fault where
  | typeError
  | keyError
  deriving Repr, DecidableEq

/-- The payload part of an operation result: a bare record
(`card[0]`), a sequence of records (`to_dict(orient="records")`), or an
error mapping carrying a message under the `error` key. -/
inductive Payload where
  | record (r : Card)
  | records (rs : List Card)
  | errMsg (msg : String)
  deriving Repr, DecidableEq

/-- The value an operation returns to the host: either a bare payload,
or a Python 2-tuple of a payload and an integer status code. -/
inductive Ret where
  | payload (p : Payload)
  | withCode (p : Payload) (code : Nat)
  deriving Repr, DecidableEq

/-- Embedding of `get_card_data`. In the source the trailing `, 404`
applies to the whole conditional expression `card[0] if card else
\x7b"error": "Card not found"\x7d`, so both branches are wrapped in a
2-tuple carrying 404. When `df` is `None` there is no guard: filtering
`None` raises a `TypeError`. -/
def get_card_data (odf : Option (List Card)) (card_id : String) :
    Except Fault Ret :=
  match odf with
  | none => Except.error Fault.typeError
  | some df =>
    match df.filter (fun r => r.id == card_id) with
    | [] => Except.ok (Ret.withCode (Payload.errMsg "Card not found") 404)
    | r :: _ => Except.ok (Ret.withCode (Payload.record r) 404)

/-- Embedding of `fuzzywuzzy.process.extractOne` over a list of candidate
strings, with the similarity scorer abstracted as a parameter: `none` on an
empty candidate list, otherwise the earliest candidate attaining the
maximal score, paired with that score (Python `max` keeps the first
maximal element). -/
def extractOne (score : String → String → Nat) (query : String) :
    List String → Option (String × Nat)
  | [] => none
  | c :: cs =>
    match extractOne score query cs with
    | none => some (c, score query c)
    | some (b, s) =>
      if score query c < s then some (b, s) else some (c, score query c)

/-- Embedding of `pandas.Series.unique`: the distinct values of a list in
first-seen order, with an accumulator of values already emitted. -/
def dedupFirstAux (seen : List String) : List String → List String
  | [] => []
  | x :: xs =>
    if seen.contains x then dedupFirstAux seen xs
    else x :: dedupFirstAux (x :: seen) xs

/-- The distinct values of a list in first-seen order. -/
def dedupFirst (l : List String) : List String :=
  dedupFirstAux [] l

/-- The distinct `name` values of the table, `df["name"].unique().tolist()`. -/
def uniqueNames (df : List Card) : List String :=
  dedupFirst (df.map (fun r => r.name))

/-- Embedding of `fuzzy_search_pokemon`: score the input against the
distinct names; below 60 return the 404 error tuple, otherwise return the
bare list of every row whose name equals the winning candidate. The body
never checks `best_match` for `None`, so `best_match[1]` raises a
`TypeError` when the candidate list is empty; likewise `df` is used
unguarded. -/
def fuzzy_search_pokemon (score : String → String → Nat)
    (odf : Option (List Card)) (nm : String) : Except Fault Ret :=
  match odf with
  | none => Except.error Fault.typeError
  | some df =>
    match extractOne score nm (uniqueNames df) with
    | none => Except.error Fault.typeError
    | some best =>
      if best.2 < 60 then
        Except.ok (Ret.withCode (Payload.errMsg "No close match found") 404)
      else
        Except.ok (Ret.payload (Payload.records
          (df.filter (fun r => r.name == best.1))))

/-- Embedding of Python `str.lower` as used by `filter_by_color`
(per-character case mapping over the string's characters). -/
def str_lower (s : String) : String :=
  String.mk (s.data.map Char.toLower)

/-- Embedding of `filter_by_color`: a `None` table is guarded and mapped to
the 500 error tuple; otherwise both the input and the stored color are
lower-cased and compared exactly. The parenthesised conditional is followed
by `, 404`, so the matching rows are also returned inside a 2-tuple
carrying 404. -/
def filter_by_color (odf : Option (List Card)) (color : String) :
    Except Fault Ret :=
  match odf with
  | none => Except.ok (Ret.withCode (Payload.errMsg "Card database missing") 500)
  | some df =>
    let filtered := df.filter (fun r => str_lower r.color == str_lower color)
    Except.ok (Ret.withCode
      (if filtered.isEmpty then Payload.errMsg "No cards found"
       else Payload.records filtered) 404)

/-- The AbilityIndex built by `fuzzy_search_ability`: for every row, for
every ability in `row["ability"]`, the pair of the ability `info` text and
the owning row id, in table order. -/
def buildAbilityIndex (df : List Card) : List (String × String) :=
  df.flatMap (fun r => r.ability.map (fun a => (a.info, r.id)))

/-- Embedding of `fuzzy_search_ability`: flatten the ability index fresh,
score the query against every ability text; when `extractOne` returned
`None` (empty index) or the best score is below 60 return the 404 error
tuple (the body does guard `not best_match`); otherwise collect the ids of
every index entry whose text equals the winning text and return the bare
list of table rows whose id is among them (`df["id"].isin(matched_ids)`). -/
def fuzzy_search_ability (score : String → String → Nat)
    (odf : Option (List Card)) (q : String) : Except Fault Ret :=
  match odf with
  | none => Except.ok (Ret.withCode (Payload.errMsg "Card database missing") 500)
  | some df =>
    let all_abilities := buildAbilityIndex df
    let ability_texts := all_abilities.map (fun a => a.1)
    match extractOne score q ability_texts with
    | none =>
      Except.ok (Ret.withCode (Payload.errMsg "No matching abilities found") 404)
    | some best =>
      if best.2 < 60 then
        Except.ok (Ret.withCode (Payload.errMsg "No matching abilities found") 404)
      else
        let matched_ids := (all_abilities.filter (fun a => a.1 == best.1)).map
          (fun a => a.2)
        Except.ok (Ret.payload (Payload.records
          (df.filter (fun r => matched_ids.contains r.id))))

/-- The context object the `lifespan` async context manager yields to the
host: the body loads the table into a local variable and then executes a
bare `yield`, so the object delivered as `lifespan_context` is `None`,
whatever table was loaded. -/
def lifespan_context (_loaded : List Card) :
    Option (List (String × List Card)) :=
  none

/-- Embedding of `ctx.request_context.lifespan_context["df"]`: subscripting
`None` raises a `TypeError`; a key missing from a dict raises `KeyError`. -/
def ctx_df (ctx : Option (List (String × List Card))) :
    Except Fault (List Card) :=
  match ctx with
  | none => Except.error Fault.typeError
  | some m =>
    match m.lookup "df" with
    | none => Except.error Fault.keyError
    | some df => Except.ok df

/-- The `get_card_data` tool as invoked by the host: fetch `df` from the
lifespan context, then run the operation body. -/
def get_card_data_tool (ctx : Option (List (String × List Card)))
    (card_id : String) : Except Fault Ret :=
  match ctx_df ctx with
  | Except.error e => Except.error e
  | Except.ok df => get_card_data (some df) card_id

/-- The `fuzzy_search_pokemon` tool as invoked by the host. -/
def fuzzy_search_pokemon_tool (score : String → String → Nat)
    (ctx : Option (List (String × List Card))) (nm : String) :
    Except Fault Ret :=
  match ctx_df ctx with
  | Except.error e => Except.error e
  | Except.ok df => fuzzy_search_pokemon score (some df) nm

/-- The `filter_by_color` tool as invoked by the host. -/
def filter_by_color_tool (ctx : Option (List (String × List Card)))
    (color : String) : Except Fault Ret :=
  match ctx_df ctx with
  | Except.error e => Except.error e
  | Except.ok df => filter_by_color (some df) color

/-- The `fuzzy_search_ability` tool as invoked by the host. -/
def fuzzy_search_ability_tool (score : String → String → Nat)
    (ctx : Option (List (String × List Card))) (q : String) :
    Except Fault Ret :=
  match ctx_df ctx with
  | Except.error e => Except.error e
  | Except.ok df => fuzzy_search_ability score (some df) q

/-- A JSON value as produced by `json.loads`. -/
inductive JsonVal where
  | null
  | bool (b : Bool)
  | num (n : Int)
  | str (s : String)
  | arr (elems : List JsonVal)
  | obj (fields : List (String × JsonVal))
  deriving Repr

/-- One raw row as read by `pd.read_csv`: the two JSON-embedded cells are
either text or missing (NaN, `none` here); the other columns pass
through. -/
structure RawRow where
  id : String
  name : String
  color : String
  attack : Option String
  ability : Option String
  extra : List (String × String)
  deriving Repr, DecidableEq

/-- One row after `load_data` has decoded the two JSON columns. -/
structure LoadedRow where
  id : String
  name : String
  color : String
  attack : JsonVal
  ability : JsonVal
  extra : List (String × String)
  deriving Repr

/-- The two failures `load_data` converts to `RuntimeError`:
a missing file ("Card database file not found") and a JSON decode failure
("Invalid JSON format in data columns"). -/
inductive LoadError where
  | fileNotFound
  | invalidJson
  deriving Repr, DecidableEq

/-- One cell of a JSON column: `json.loads(x) if pd.notna(x) else []`.
The decoder `dec` models `json.loads`, returning `none` exactly when it
would raise `json.JSONDecodeError`. -/
def decodeCell (dec : String → Option JsonVal) (cell : Option String) :
    Except LoadError JsonVal :=
  match cell with
  | none => Except.ok (JsonVal.arr [])
  | some s =>
    match dec s with
    | some v => Except.ok v
    | none => Except.error LoadError.invalidJson

/-- Decoding of both JSON cells of one raw row. -/
def loadRow (dec : String → Option JsonVal) (r : RawRow) :
    Except LoadError LoadedRow :=
  match decodeCell dec r.attack with
  | Except.error e => Except.error e
  | Except.ok a =>
    match decodeCell dec r.ability with
    | Except.error e => Except.error e
    | Except.ok b =>
      Except.ok { id := r.id, name := r.name, color := r.color,
                  attack := a, ability := b, extra := r.extra }

/-- Decoding of every row, aborting on the first failure (a raised
`json.JSONDecodeError` aborts the surrounding `apply`). -/
def mapLoad (dec : String → Option JsonVal) :
    List RawRow → Except LoadError (List LoadedRow)
  | [] => Except.ok []
  | r :: rs =>
    match loadRow dec r with
    | Except.error e => Except.error e
    | Except.ok v =>
      match mapLoad dec rs with
      | Except.error e => Except.error e
      | Except.ok vs => Except.ok (v :: vs)

/-- Embedding of `load_data`: a missing file (`none`) raises
`FileNotFoundError`, re-raised as a RuntimeError; any JSON decode failure
in either embedded column is re-raised as a RuntimeError. The source
applies the decode column-by-column (all of `attack`, then all of
`ability`); this embedding processes row-by-row, which is observationally
equal because every decode failure maps to the same error value. -/
def load_data (dec : String → Option JsonVal) (file : Option (List RawRow)) :
    Except LoadError (List LoadedRow) :=
  match file with
  | none => Except.error LoadError.fileNotFound
  | some rows => mapLoad dec rows

/-- An ability shared verbatim by two sample cards. -/
def growl : Ability := { info := "Growl" }

/-- A sample card without abilities. -/
def cardA : Card :=
  { id := "a1-001", name := "Pikachu", color := "Yellow", ability := [],
    extra := [("rarity", "C")] }

/-- A second sample card with the same name as `cardA`. -/
def cardB : Card :=
  { id := "a1-002", name := "Pikachu", color := "Yellow", ability := [growl],
    extra := [] }

/-- A sample card sharing its ability text with `cardB`. -/
def cardC : Card :=
  { id := "a1-003", name := "Charmander", color := "Red", ability := [growl],
    extra := [] }

/-- A small concrete table for evaluation theorems and witnesses. -/
def sampleDf : List Card := [cardA, cardB, cardC]

/-- First of two sample rows sharing the same id. -/
def dupCard1 : Card :=
  { id := "d1", name := "Eevee", color := "Colorless", ability := [],
    extra := [("v", "1")] }

/-- Second of two sample rows sharing the same id. -/
def dupCard2 : Card :=
  { id := "d1", name := "Eevee", color := "Colorless", ability := [],
    extra := [("v", "2")] }

/-- A table with a duplicated id, to exhibit the first-match pick. -/
def dupDf : List Card := [dupCard1, dupCard2]

/-- A concrete similarity scorer used to instantiate the abstract scorer in
witnesses: 100 on equal strings, 0 otherwise. -/
def exactScore (a b : String) : Nat := if a == b then 100 else 0

/-- A decoder on which every cell fails, for corrupt-load witnesses. -/
def decNone : String → Option JsonVal := fun _ => none

/-- A decoder defined on the sample cells only. -/
def decSample : String → Option JsonVal := fun s =>
  if s == "[]" then some (JsonVal.arr [])
  else if s == "[1]" then some (JsonVal.arr [JsonVal.num 1])
  else none

/-- A raw sample row with a present attack cell and a missing ability cell. -/
def rawRowA : RawRow :=
  { id := "a1-001", name := "Pikachu", color := "Yellow",
    attack := some "[]", ability := none, extra := [("rarity", "C")] }

/-- A raw sample row with a missing attack cell and a present ability cell. -/
def rawRowB : RawRow :=
  { id := "a1-002", name := "Pikachu", color := "Yellow",
    attack := none, ability := some "[1]", extra := [] }

/-- A raw sample row whose attack cell is malformed JSON. -/
def rawRowBad : RawRow :=
  { id := "a1-004", name := "Oddish", color := "Green",
    attack := some "not json", ability := none, extra := [] }

/-- The decoded form of `rawRowA`. -/
def loadedA : LoadedRow :=
  { id := "a1-001", name := "Pikachu", color := "Yellow",
    attack := JsonVal.arr [], ability := JsonVal.arr [],
    extra := [("rarity", "C")] }

/-- The decoded form of `rawRowB`. -/
def loadedB : LoadedRow :=
  { id := "a1-002", name := "Pikachu", color := "Yellow",
    attack := JsonVal.arr [], ability := JsonVal.arr [JsonVal.num 1],
    extra := [] }

/-
Helper lemmas about the embedded operations.
-/

/-- On a nonempty candidate list `extractOne` produces a best pair. -/
theorem extractOne_isSome (score : String → String → Nat) (query c : String)
    (cs : List String) :
    ∃ b s, extractOne score query (c :: cs) = some (b, s) := by
  simp only [extractOne]
  rcases extractOne score query cs with _ | ⟨b, s⟩
  · exact ⟨c, score query c, rfl⟩
  · by_cases hlt : score query c < s
    · exact ⟨b, s, by simp [hlt]⟩
    · exact ⟨c, score query c, by simp [hlt]⟩

/-- The pair `extractOne` produces is a candidate together with its score. -/
theorem extractOne_mem_score (score : String → String → Nat) (query : String) :
    ∀ (l : List String) (b : String) (s : Nat),
      extractOne score query l = some (b, s) → b ∈ l ∧ s = score query b := by
  intro l
  induction l with
  | nil => intro b s h; simp [extractOne] at h
  | cons c cs ih =>
    intro b s h
    simp only [extractOne] at h
    rcases h2 : extractOne score query cs with _ | ⟨b2, s2⟩ <;>
      simp only [h2] at h
    · obtain ⟨rfl, rfl⟩ := Option.some.inj h |> Prod.mk.inj
      exact ⟨List.mem_cons_self c cs, rfl⟩
    · by_cases hlt : score query c < s2
      · rw [if_pos hlt] at h
        obtain ⟨rfl, rfl⟩ := Option.some.inj h |> Prod.mk.inj
        obtain ⟨hmem, hsc⟩ := ih b2 s2 h2
        exact ⟨List.mem_cons_of_mem c hmem, hsc⟩
      · rw [if_neg hlt] at h
        obtain ⟨rfl, rfl⟩ := Option.some.inj h |> Prod.mk.inj
        exact ⟨List.mem_cons_self c cs, rfl⟩

/-- The score `extractOne` produces is maximal over the candidate list. -/
theorem extractOne_le (score : String → String → Nat) (query : String) :
    ∀ (l : List String) (b : String) (s : Nat),
      extractOne score query l = some (b, s) →
      ∀ c ∈ l, score query c ≤ s := by
  intro l
  induction l with
  | nil => intro b s h; simp [extractOne] at h
  | cons c cs ih =>
    intro b s h d hd
    simp only [extractOne] at h
    rcases h2 : extractOne score query cs with _ | ⟨b2, s2⟩ <;>
      simp only [h2] at h
    · have hnil : cs = [] := by
        cases cs with
        | nil => rfl
        | cons e es =>
          obtain ⟨b3, s3, h3⟩ := extractOne_isSome score query e es
          rw [h3] at h2
          exact absurd h2 (by simp)
      subst hnil
      obtain ⟨rfl, rfl⟩ := Option.some.inj h |> Prod.mk.inj
      rcases List.mem_singleton.mp hd with rfl
      exact Nat.le_refl _
    · by_cases hlt : score query c < s2
      · rw [if_pos hlt] at h
        obtain ⟨rfl, rfl⟩ := Option.some.inj h |> Prod.mk.inj
        rcases List.mem_cons.mp hd with rfl | hd2
        · exact Nat.le_of_lt hlt
        · exact ih b2 s2 h2 d hd2
      · rw [if_neg hlt] at h
        obtain ⟨rfl, rfl⟩ := Option.some.inj h |> Prod.mk.inj
        rcases List.mem_cons.mp hd with rfl | hd2
        · exact Nat.le_refl _
        · exact Nat.le_trans (ih b2 s2 h2 d hd2) (Nat.le_of_not_lt hlt)

/-- Membership of the accumulator-based first-seen dedup. -/
theorem mem_dedupFirstAux (a : String) :
    ∀ (l seen : List String),
      a ∈ dedupFirstAux seen l ↔ a ∈ l ∧ a ∉ seen := by
  intro l
  induction l with
  | nil => intro seen; simp [dedupFirstAux]
  | cons x xs ih =>
    intro seen
    by_cases hx : seen.contains x
    · have hxs : x ∈ seen := List.elem_iff.mp hx
      simp only [dedupFirstAux, if_pos hx, ih]
      constructor
      · rintro ⟨h1, h2⟩
        exact ⟨List.mem_cons_of_mem x h1, h2⟩
      · rintro ⟨h1, h2⟩
        rcases List.mem_cons.mp h1 with rfl | h3
        · exact absurd hxs h2
        · exact ⟨h3, h2⟩
    · have hxs : x ∉ seen := fun hmem => hx (List.elem_iff.mpr hmem)
      simp only [dedupFirstAux, if_neg hx]
      constructor
      · intro hmem
        rcases List.mem_cons.mp hmem with rfl | h3
        · exact ⟨List.mem_cons_self a xs, hxs⟩
        · obtain ⟨h4, h5⟩ := (ih (x :: seen)).mp h3
          exact ⟨List.mem_cons_of_mem x h4,
            fun hm => h5 (List.mem_cons_of_mem x hm)⟩
      · rintro ⟨h1, h2⟩
        rcases List.mem_cons.mp h1 with rfl | h3
        · exact List.mem_cons_self a _
        · by_cases hax : a = x
          · subst hax
            exact List.mem_cons_self a _
          · refine List.mem_cons_of_mem x ((ih (x :: seen)).mpr ⟨h3, ?_⟩)
            intro hm
            rcases List.mem_cons.mp hm with h5 | h5
            · exact hax h5
            · exact h2 h5

/-- Membership of the distinct-values list. -/
theorem mem_dedupFirst (a : String) (l : List String) :
    a ∈ dedupFirst l ↔ a ∈ l := by
  simp [dedupFirst, mem_dedupFirstAux]

/-- The accumulator-based first-seen dedup has no duplicates. -/
theorem nodup_dedupFirstAux :
    ∀ (l seen : List String), (dedupFirstAux seen l).Nodup := by
  intro l
  induction l with
  | nil => intro seen; simp [dedupFirstAux]
  | cons x xs ih =>
    intro seen
    by_cases hx : seen.contains x
    · simpa only [dedupFirstAux, if_pos hx] using ih seen
    · simp only [dedupFirstAux, if_neg hx]
      refine List.nodup_cons.mpr ⟨?_, ih (x :: seen)⟩
      intro hmem
      exact ((mem_dedupFirstAux x xs (x :: seen)).mp hmem).2
        (List.mem_cons_self x seen)

/-- The distinct-values list has no duplicates. -/
theorem nodup_dedupFirst (l : List String) : (dedupFirst l).Nodup :=
  nodup_dedupFirstAux l []

/-- A decode failure in `decodeCell` always carries the invalid-JSON error. -/
theorem decodeCell_error (dec : String → Option JsonVal) (cell : Option String)
    (e : LoadError) (h : decodeCell dec cell = Except.error e) :
    e = LoadError.invalidJson := by
  cases cell with
  | none => simp [decodeCell] at h
  | some s =>
    simp only [decodeCell] at h
    rcases h2 : dec s with _ | v <;> simp only [h2] at h
    · exact (Except.error.inj h).symm
    · simp at h

/-- What a successful `decodeCell` says about the cell. -/
theorem decodeCell_ok (dec : String → Option JsonVal) (cell : Option String)
    (v : JsonVal) (h : decodeCell dec cell = Except.ok v) :
    (cell = none → v = JsonVal.arr []) ∧
    (∀ s, cell = some s → dec s = some v) := by
  cases cell with
  | none =>
    simp only [decodeCell] at h
    refine ⟨fun _ => (Except.ok.inj h).symm, ?_⟩
    intro s hs
    exact absurd hs (by simp)
  | some s =>
    refine ⟨fun hs => absurd hs (by simp), ?_⟩
    intro s2 hs
    obtain rfl := Option.some.inj hs
    simp only [decodeCell] at h
    rcases h2 : dec s with _ | v2 <;> simp only [h2] at h
    · simp at h
    · rw [Except.ok.inj h]

/-- A successful `loadRow` decodes both cells and passes the rest through. -/
theorem loadRow_ok_fields (dec : String → Option JsonVal) (r : RawRow)
    (v : LoadedRow) (h : loadRow dec r = Except.ok v) :
    v.id = r.id ∧ v.name = r.name ∧ v.color = r.color ∧ v.extra = r.extra ∧
    decodeCell dec r.attack = Except.ok v.attack ∧
    decodeCell dec r.ability = Except.ok v.ability := by
  simp only [loadRow] at h
  cases h1 : decodeCell dec r.attack with
  | error e1 => simp only [h1] at h; simp at h
  | ok a =>
    simp only [h1] at h
    cases h2 : decodeCell dec r.ability with
    | error e2 => simp only [h2] at h; simp at h
    | ok b =>
      simp only [h2] at h
      obtain rfl := Except.ok.inj h
      exact ⟨rfl, rfl, rfl, rfl, rfl, rfl⟩

/-- An erroring `loadRow` always carries the invalid-JSON error. -/
theorem loadRow_error (dec : String → Option JsonVal) (r : RawRow)
    (e : LoadError) (h : loadRow dec r = Except.error e) :
    e = LoadError.invalidJson := by
  simp only [loadRow] at h
  cases h1 : decodeCell dec r.attack with
  | error e1 =>
    simp only [h1] at h
    obtain rfl := Except.error.inj h
    exact decodeCell_error dec r.attack e1 h1
  | ok a =>
    simp only [h1] at h
    cases h2 : decodeCell dec r.ability with
    | error e2 =>
      simp only [h2] at h
      obtain rfl := Except.error.inj h
      exact decodeCell_error dec r.ability e2 h2
    | ok b =>
      simp only [h2] at h
      simp at h

/-- A row with a cell the decoder rejects makes `loadRow` fail. -/
theorem loadRow_bad (dec : String → Option JsonVal) (r : RawRow)
    (hbad : (∃ s, r.attack = some s ∧ dec s = none) ∨
            (∃ s, r.ability = some s ∧ dec s = none)) :
    loadRow dec r = Except.error LoadError.invalidJson := by
  rcases hbad with ⟨s, hs, hd⟩ | ⟨s, hs, hd⟩
  · have h1 : decodeCell dec r.attack = Except.error LoadError.invalidJson := by
      simp [decodeCell, hs, hd]
    simp [loadRow, h1]
  · cases h1 : decodeCell dec r.attack with
    | error e1 =>
      obtain rfl := decodeCell_error dec r.attack e1 h1
      simp [loadRow, h1]
    | ok a =>
      have h2 : decodeCell dec r.ability = Except.error LoadError.invalidJson := by
        simp [decodeCell, hs, hd]
      simp [loadRow, h1, h2]

/-- An erroring `mapLoad` always carries the invalid-JSON error. -/
theorem mapLoad_error (dec : String → Option JsonVal) :
    ∀ (rows : List RawRow) (e : LoadError),
      mapLoad dec rows = Except.error e → e = LoadError.invalidJson := by
  intro rows
  induction rows with
  | nil => intro e h; simp [mapLoad] at h
  | cons r rs ih =>
    intro e h
    simp only [mapLoad] at h
    cases h1 : loadRow dec r with
    | error e1 =>
      simp only [h1] at h
      obtain rfl := Except.error.inj h
      exact loadRow_error dec r e1 h1
    | ok v =>
      simp only [h1] at h
      cases h2 : mapLoad dec rs with
      | error e2 =>
        simp only [h2] at h
        obtain rfl := Except.error.inj h
        exact ih e2 h2
      | ok vs =>
        simp only [h2] at h
        simp at h

/-- A failing member row makes the whole `mapLoad` fail. -/
theorem mapLoad_mem_bad (dec : String → Option JsonVal) :
    ∀ (rows : List RawRow) (r : RawRow), r ∈ rows →
      loadRow dec r = Except.error LoadError.invalidJson →
      mapLoad dec rows = Except.error LoadError.invalidJson := by
  intro rows
  induction rows with
  | nil => intro r hm; simp at hm
  | cons r0 rs ih =>
    intro r hm hr
    rcases List.mem_cons.mp hm with rfl | hm2
    · simp [mapLoad, hr]
    · cases h1 : loadRow dec r0 with
      | error e1 =>
        obtain rfl := loadRow_error dec r0 e1 h1
        simp [mapLoad, h1]
      | ok v =>
        simp [mapLoad, h1, ih r hm2 hr]

/-- Lengths agree on a successful `mapLoad`. -/
theorem mapLoad_ok_length (dec : String → Option JsonVal) :
    ∀ (rows : List RawRow) (t : List LoadedRow),
      mapLoad dec rows = Except.ok t → t.length = rows.length := by
  intro rows
  induction rows with
  | nil =>
    intro t h
    simp only [mapLoad] at h
    obtain rfl := Except.ok.inj h
    rfl
  | cons r rs ih =>
    intro t h
    simp only [mapLoad] at h
    cases h1 : loadRow dec r with
    | error e1 => simp only [h1] at h; simp at h
    | ok v =>
      simp only [h1] at h
      cases h2 : mapLoad dec rs with
      | error e2 => simp only [h2] at h; simp at h
      | ok vs =>
        simp only [h2] at h
        obtain rfl := Except.ok.inj h
        simp [ih vs h2]

/-- Pointwise content of a successful `mapLoad`. -/
theorem mapLoad_ok_get (dec : String → Option JsonVal) :
    ∀ (rows : List RawRow) (t : List LoadedRow),
      mapLoad dec rows = Except.ok t →
      ∀ (i : Nat) (hi : i < rows.length) (hi2 : i < t.length),
        loadRow dec (rows.get ⟨i, hi⟩) = Except.ok (t.get ⟨i, hi2⟩) := by
  intro rows
  induction rows with
  | nil => intro t h i hi hi2; exact absurd hi (by simp)
  | cons r rs ih =>
    intro t h i hi hi2
    simp only [mapLoad] at h
    cases h1 : loadRow dec r with
    | error e1 => simp only [h1] at h; simp at h
    | ok v =>
      simp only [h1] at h
      cases h2 : mapLoad dec rs with
      | error e2 => simp only [h2] at h; simp at h
      | ok vs =>
        simp only [h2] at h
        obtain rfl := Except.ok.inj h
        cases i with
        | zero => exact h1
        | succ j =>
          exact ih vs h2 j (Nat.lt_of_succ_lt_succ hi)
            (Nat.lt_of_succ_lt_succ hi2)

/-- A nonempty table has a nonempty distinct-name list. -/
theorem uniqueNames_ne_nil (r : Card) (rs : List Card) :
    uniqueNames (r :: rs) ≠ [] :=
  fun hc => List.cons_ne_nil _ _ hc

/-
Claim theorems.
-/

/-- C1: the claim says a successful result is a bare record or bare
sequence and only a failure result carries a status code. In the code the
trailing `, 404` of `get_card_data` and of `filter_by_color` applies to
the whole conditional, so the success branch is also wrapped in a 2-tuple
carrying 404: on a matching id the returned value is the pair of the
record and 404, and on a matching color the pair of the matching rows and
404, so shape alone does not distinguish success from failure. -/
theorem success_results_carry_status_404 :
    get_card_data (some sampleDf) "a1-001" =
      Except.ok (Ret.withCode (Payload.record cardA) 404) ∧
    filter_by_color (some sampleDf) "Red" =
      Except.ok (Ret.withCode (Payload.records [cardC]) 404) :=
  ⟨rfl, rfl⟩

/-- C2: with the file present and well-formed, the four tools still fault:
the lifespan context manager yields no context object whatever table it
loaded, so every operation's subscript of the lifespan context raises a
`TypeError` that escapes to the host instead of any payload. -/
theorem tools_fault_under_lifespan (t : List Card)
    (score : String → String → Nat) (arg : String) :
    get_card_data_tool (lifespan_context t) arg =
      Except.error Fault.typeError ∧
    fuzzy_search_pokemon_tool score (lifespan_context t) arg =
      Except.error Fault.typeError ∧
    filter_by_color_tool (lifespan_context t) arg =
      Except.error Fault.typeError ∧
    fuzzy_search_ability_tool score (lifespan_context t) arg =
      Except.error Fault.typeError :=
  ⟨rfl, rfl, rfl, rfl⟩

/-- C3: with the dataset file missing, `load_data` fails with the
file-not-found RuntimeError rather than producing a table, and of the four
operations only `filter_by_color` and `fuzzy_search_ability` map an absent
table to the 500 "Card database missing" payload; `get_card_data` and
`fuzzy_search_pokemon` have no such guard and fault instead. -/
theorem missing_file_behavior (dec : String → Option JsonVal)
    (score : String → String → Nat) (arg : String) :
    load_data dec none = Except.error LoadError.fileNotFound ∧
    get_card_data none arg = Except.error Fault.typeError ∧
    fuzzy_search_pokemon score none arg = Except.error Fault.typeError ∧
    filter_by_color none arg =
      Except.ok (Ret.withCode (Payload.errMsg "Card database missing") 500) ∧
    fuzzy_search_ability score none arg =
      Except.ok (Ret.withCode (Payload.errMsg "Card database missing") 500) :=
  ⟨rfl, rfl, rfl, rfl, rfl⟩

/-- C4: evaluation of `get_card_data`: on a matching id the code returns
the first matching row in table order, but wrapped in a 2-tuple with
status 404 rather than as the bare record the claim states; with zero
matching rows it returns the "Card not found" error with 404 as the claim
states. -/
theorem get_card_data_on_match :
    get_card_data (some sampleDf) "a1-002" =
      Except.ok (Ret.withCode (Payload.record cardB) 404) ∧
    get_card_data (some dupDf) "d1" =
      Except.ok (Ret.withCode (Payload.record dupCard1) 404) ∧
    get_card_data (some sampleDf) "nope" =
      Except.ok (Ret.withCode (Payload.errMsg "Card not found") 404) :=
  ⟨rfl, rfl, rfl⟩

/-- C7: `filter_by_color` returns identical results on any two inputs that
are equal up to letter case: the comparison lower-cases both the input and
the stored color, so the result depends on the input only through its
lower-casing. -/
theorem filter_by_color_case_insensitive (odf : Option (List Card))
    (c1 c2 : String) (h : str_lower c1 = str_lower c2) :
    filter_by_color odf c1 = filter_by_color odf c2 := by
  cases odf with
  | none => rfl
  | some df => simp only [filter_by_color, h]

/-- Witness for C7 at the concrete pair "Red"/"red" on the sample table. -/
theorem filter_by_color_case_insensitive_witness :
    str_lower "Red" = str_lower "red" ∧
    filter_by_color (some sampleDf) "Red" =
      filter_by_color (some sampleDf) "red" :=
  ⟨rfl, filter_by_color_case_insensitive (some sampleDf) "Red" "red" rfl⟩

/-- C8: a JSON cell the decoder rejects, in either embedded column of any
row, aborts the whole load with the invalid-JSON RuntimeError; no table is
produced from such a file. -/
theorem load_data_corrupt_aborts (dec : String → Option JsonVal)
    (rows : List RawRow) (r : RawRow) (hm : r ∈ rows)
    (hbad : (∃ s, r.attack = some s ∧ dec s = none) ∨
            (∃ s, r.ability = some s ∧ dec s = none)) :
    load_data dec (some rows) = Except.error LoadError.invalidJson :=
  mapLoad_mem_bad dec rows r hm (loadRow_bad dec r hbad)

/-- Witness for C8: the sample decoder rejects the malformed attack cell
of `rawRowBad`, and loading the two-row file fails with the invalid-JSON
error. -/
theorem load_data_corrupt_aborts_witness :
    rawRowBad ∈ [rawRowA, rawRowBad] ∧
    (∃ s, rawRowBad.attack = some s ∧ decSample s = none) ∧
    load_data decSample (some [rawRowA, rawRowBad]) =
      Except.error LoadError.invalidJson :=
  ⟨by decide, ⟨"not json", rfl, rfl⟩,
    load_data_corrupt_aborts decSample [rawRowA, rawRowBad] rawRowBad
      (by decide) (Or.inl ⟨"not json", rfl, rfl⟩)⟩

/-- C9: on a successful load, for each row and each of the two embedded
columns, a present cell decodes as JSON into the stored structured value
and an absent cell becomes the empty JSON sequence. -/
theorem load_data_json_cells (dec : String → Option JsonVal)
    (file : List RawRow) (t : List LoadedRow)
    (h : load_data dec (some file) = Except.ok t) :
    ∀ (i : Nat) (hi : i < file.length) (hi2 : i < t.length),
      ((file.get ⟨i, hi⟩).attack = none →
        (t.get ⟨i, hi2⟩).attack = JsonVal.arr []) ∧
      (∀ s, (file.get ⟨i, hi⟩).attack = some s →
        dec s = some ((t.get ⟨i, hi2⟩).attack)) ∧
      ((file.get ⟨i, hi⟩).ability = none →
        (t.get ⟨i, hi2⟩).ability = JsonVal.arr []) ∧
      (∀ s, (file.get ⟨i, hi⟩).ability = some s →
        dec s = some ((t.get ⟨i, hi2⟩).ability)) := by
  intro i hi hi2
  have hrow := mapLoad_ok_get dec file t h i hi hi2
  obtain ⟨_, _, _, _, ha, hb⟩ := loadRow_ok_fields dec _ _ hrow
  obtain ⟨ha1, ha2⟩ := decodeCell_ok dec _ _ ha
  obtain ⟨hb1, hb2⟩ := decodeCell_ok dec _ _ hb
  exact ⟨ha1, ha2, hb1, hb2⟩

/-- Witness for C9 on a concrete two-row file: one present and one absent
cell in each column. -/
theorem load_data_json_cells_witness :
    load_data decSample (some [rawRowA, rawRowB]) =
      Except.ok [loadedA, loadedB] ∧
    (∀ (i : Nat) (hi : i < ([rawRowA, rawRowB] : List RawRow).length)
        (hi2 : i < ([loadedA, loadedB] : List LoadedRow).length),
      ((([rawRowA, rawRowB] : List RawRow).get ⟨i, hi⟩).attack = none →
        (([loadedA, loadedB] : List LoadedRow).get ⟨i, hi2⟩).attack =
          JsonVal.arr []) ∧
      (∀ s, (([rawRowA, rawRowB] : List RawRow).get ⟨i, hi⟩).attack = some s →
        decSample s =
          some ((([loadedA, loadedB] : List LoadedRow).get ⟨i, hi2⟩).attack)) ∧
      ((([rawRowA, rawRowB] : List RawRow).get ⟨i, hi⟩).ability = none →
        (([loadedA, loadedB] : List LoadedRow).get ⟨i, hi2⟩).ability =
          JsonVal.arr []) ∧
      (∀ s, (([rawRowA, rawRowB] : List RawRow).get ⟨i, hi⟩).ability = some s →
        decSample s =
          some ((([loadedA, loadedB] : List LoadedRow).get ⟨i, hi2⟩).ability))) :=
  ⟨rfl, load_data_json_cells decSample [rawRowA, rawRowB] [loadedA, loadedB] rfl⟩

/-- C10: a successful load preserves the number and order of rows and
every column other than the two JSON-embedded ones. -/
theorem load_data_frame (dec : String → Option JsonVal)
    (file : List RawRow) (t : List LoadedRow)
    (h : load_data dec (some file) = Except.ok t) :
    t.length = file.length ∧
    ∀ (i : Nat) (hi : i < file.length) (hi2 : i < t.length),
      (t.get ⟨i, hi2⟩).id = (file.get ⟨i, hi⟩).id ∧
      (t.get ⟨i, hi2⟩).name = (file.get ⟨i, hi⟩).name ∧
      (t.get ⟨i, hi2⟩).color = (file.get ⟨i, hi⟩).color ∧
      (t.get ⟨i, hi2⟩).extra = (file.get ⟨i, hi⟩).extra := by
  refine ⟨mapLoad_ok_length dec file t h, ?_⟩
  intro i hi hi2
  have hrow := mapLoad_ok_get dec file t h i hi hi2
  obtain ⟨h1, h2, h3, h4, _, _⟩ := loadRow_ok_fields dec _ _ hrow
  exact ⟨h1, h2, h3, h4⟩

/-- Witness for C10 on the concrete two-row file. -/
theorem load_data_frame_witness :
    load_data decSample (some [rawRowA, rawRowB]) =
      Except.ok [loadedA, loadedB] ∧
    (([loadedA, loadedB] : List LoadedRow).length =
      ([rawRowA, rawRowB] : List RawRow).length ∧
    ∀ (i : Nat) (hi : i < ([rawRowA, rawRowB] : List RawRow).length)
        (hi2 : i < ([loadedA, loadedB] : List LoadedRow).length),
      ((([loadedA, loadedB] : List LoadedRow).get ⟨i, hi2⟩).id =
        (([rawRowA, rawRowB] : List RawRow).get ⟨i, hi⟩).id ∧
      (([loadedA, loadedB] : List LoadedRow).get ⟨i, hi2⟩).name =
        (([rawRowA, rawRowB] : List RawRow).get ⟨i, hi⟩).name ∧
      (([loadedA, loadedB] : List LoadedRow).get ⟨i, hi2⟩).color =
        (([rawRowA, rawRowB] : List RawRow).get ⟨i, hi⟩).color ∧
      (([loadedA, loadedB] : List LoadedRow).get ⟨i, hi2⟩).extra =
        (([rawRowA, rawRowB] : List RawRow).get ⟨i, hi⟩).extra)) :=
  ⟨rfl, load_data_frame decSample [rawRowA, rawRowB] [loadedA, loadedB] rfl⟩

/-- C5: on a nonempty table, `fuzzy_search_pokemon` scores the input
against the distinct name values of the table (a duplicate-free list
holding exactly the names that occur in the table), the winning candidate
is one of them and its score is maximal; if the best score is strictly
below 60 the operation returns the 404 error, and otherwise it returns
every row of the table whose name equals the winning candidate. -/
theorem fuzzy_search_pokemon_spec (score : String → String → Nat)
    (df : List Card) (nm : String) (h : df ≠ []) :
    ∃ w s, extractOne score nm (uniqueNames df) = some (w, s) ∧
      w ∈ uniqueNames df ∧
      s = score nm w ∧
      (∀ c ∈ uniqueNames df, score nm c ≤ s) ∧
      (uniqueNames df).Nodup ∧
      (∀ n, n ∈ uniqueNames df ↔ ∃ r ∈ df, r.name = n) ∧
      (s < 60 →
        fuzzy_search_pokemon score (some df) nm =
          Except.ok (Ret.withCode (Payload.errMsg "No close match found") 404)) ∧
      (60 ≤ s → ∃ rs,
        fuzzy_search_pokemon score (some df) nm =
          Except.ok (Ret.payload (Payload.records rs)) ∧
        ∀ r, r ∈ rs ↔ r ∈ df ∧ r.name = w) := by
  obtain ⟨w, s, hws⟩ : ∃ w s,
      extractOne score nm (uniqueNames df) = some (w, s) := by
    rcases hu : uniqueNames df with _ | ⟨c, cs⟩
    · cases df with
      | nil => exact absurd rfl h
      | cons r rs => exact absurd hu (uniqueNames_ne_nil r rs)
    · exact extractOne_isSome score nm c cs
  obtain ⟨hwmem, hwscore⟩ := extractOne_mem_score score nm _ w s hws
  refine ⟨w, s, hws, hwmem, hwscore, extractOne_le score nm _ w s hws,
    nodup_dedupFirst _, ?_, ?_, ?_⟩
  · intro n
    rw [show uniqueNames df = dedupFirst (df.map (fun r => r.name)) from rfl,
      mem_dedupFirst]
    exact List.mem_map
  · intro hlt
    simp only [fuzzy_search_pokemon, hws]
    rw [if_pos hlt]
  · intro hge
    refine ⟨df.filter (fun r => r.name == w), ?_, ?_⟩
    · simp only [fuzzy_search_pokemon, hws]
      rw [if_neg (Nat.not_lt.mpr hge)]
    · intro r
      simp [List.mem_filter]

/-- Witness for C5 at the concrete scorer, table and input. -/
theorem fuzzy_search_pokemon_spec_witness :
    sampleDf ≠ [] ∧
    (∃ w s,
      extractOne exactScore "Pikachu" (uniqueNames sampleDf) = some (w, s) ∧
      w ∈ uniqueNames sampleDf ∧
      s = exactScore "Pikachu" w ∧
      (∀ c ∈ uniqueNames sampleDf, exactScore "Pikachu" c ≤ s) ∧
      (uniqueNames sampleDf).Nodup ∧
      (∀ n, n ∈ uniqueNames sampleDf ↔ ∃ r ∈ sampleDf, r.name = n) ∧
      (s < 60 →
        fuzzy_search_pokemon exactScore (some sampleDf) "Pikachu" =
          Except.ok (Ret.withCode (Payload.errMsg "No close match found") 404)) ∧
      (60 ≤ s → ∃ rs,
        fuzzy_search_pokemon exactScore (some sampleDf) "Pikachu" =
          Except.ok (Ret.payload (Payload.records rs)) ∧
        ∀ r, r ∈ rs ↔ r ∈ sampleDf ∧ r.name = w)) :=
  ⟨by decide, fuzzy_search_pokemon_spec exactScore sampleDf "Pikachu" (by decide)⟩

/-- C6: `fuzzy_search_ability` scores the query against the texts of the
freshly flattened ability index; on an empty index the operation returns
the 404 error, as it does when the best score is strictly below 60, and
otherwise the rows returned are exactly the table rows whose id belongs to
some index entry whose ability text equals the winning text. -/
theorem fuzzy_search_ability_spec (score : String → String → Nat)
    (df : List Card) (q : String) (w : String) (s : Nat)
    (h : extractOne score q ((buildAbilityIndex df).map (fun a => a.1)) =
      some (w, s)) :
    (∀ df2, buildAbilityIndex df2 = [] →
      fuzzy_search_ability score (some df2) q =
        Except.ok (Ret.withCode
          (Payload.errMsg "No matching abilities found") 404)) ∧
    s = score q w ∧
    (∀ p ∈ buildAbilityIndex df, score q p.1 ≤ s) ∧
    (s < 60 →
      fuzzy_search_ability score (some df) q =
        Except.ok (Ret.withCode
          (Payload.errMsg "No matching abilities found") 404)) ∧
    (60 ≤ s → ∃ rs,
      fuzzy_search_ability score (some df) q =
        Except.ok (Ret.payload (Payload.records rs)) ∧
      ∀ r, r ∈ rs ↔ r ∈ df ∧
        ∃ p, p ∈ buildAbilityIndex df ∧ p.1 = w ∧ p.2 = r.id) := by
  refine ⟨?_, (extractOne_mem_score score q _ w s h).2, ?_, ?_, ?_⟩
  · intro df2 h2
    simp [fuzzy_search_ability, h2, extractOne]
  · intro p hp
    exact extractOne_le score q _ w s h p.1 (List.mem_map.mpr ⟨p, hp, rfl⟩)
  · intro hlt
    simp only [fuzzy_search_ability, h]
    rw [if_pos hlt]
  · intro hge
    refine ⟨df.filter (fun r =>
      (((buildAbilityIndex df).filter (fun a => a.1 == w)).map
        (fun a => a.2)).contains r.id), ?_, ?_⟩
    · simp only [fuzzy_search_ability, h]
      rw [if_neg (Nat.not_lt.mpr hge)]
    · intro r
      rw [List.mem_filter]
      constructor
      · rintro ⟨hr, hc⟩
        obtain ⟨p, hp, hpid⟩ := List.mem_map.mp (List.elem_iff.mp hc)
        obtain ⟨hpidx, hpw⟩ := List.mem_filter.mp hp
        exact ⟨hr, p, hpidx, beq_iff_eq.mp hpw, hpid⟩
      · rintro ⟨hr, p, hpidx, hpw, hpid⟩
        refine ⟨hr, List.elem_iff.mpr (List.mem_map.mpr
          ⟨p, List.mem_filter.mpr ⟨hpidx, beq_iff_eq.mpr hpw⟩, hpid⟩)⟩

/-- Witness for C6 at the concrete scorer, table and query: the ability
text "Growl" is shared verbatim by two sample cards. -/
theorem fuzzy_search_ability_spec_witness :
    extractOne exactScore "Growl"
      ((buildAbilityIndex sampleDf).map (fun a => a.1)) = some ("Growl", 100) ∧
    ((∀ df2, buildAbilityIndex df2 = [] →
      fuzzy_search_ability exactScore (some df2) "Growl" =
        Except.ok (Ret.withCode
          (Payload.errMsg "No matching abilities found") 404)) ∧
    (100 : Nat) = exactScore "Growl" "Growl" ∧
    (∀ p ∈ buildAbilityIndex sampleDf, exactScore "Growl" p.1 ≤ 100) ∧
    ((100 : Nat) < 60 →
      fuzzy_search_ability exactScore (some sampleDf) "Growl" =
        Except.ok (Ret.withCode
          (Payload.errMsg "No matching abilities found") 404)) ∧
    ((60 : Nat) ≤ 100 → ∃ rs,
      fuzzy_search_ability exactScore (some sampleDf) "Growl" =
        Except.ok (Ret.payload (Payload.records rs)) ∧
      ∀ r, r ∈ rs ↔ r ∈ sampleDf ∧
        ∃ p, p ∈ buildAbilityIndex sampleDf ∧ p.1 = "Growl" ∧ p.2 = r.id)) :=
  ⟨rfl, fuzzy_search_ability_spec exactScore sampleDf "Growl" "Growl" 100 rfl⟩

end PTCGP
